import Mathlib

/-!
Verification development for the gsap-offset-path geometry core.

The TypeScript source is shallowly embedded here:
* the SVG path parser, the Bézier flattener and the scaling/winding stage
  operate on exact rationals (`ℚ`), idealizing IEEE doubles;
* the offset engine (which uses `sqrt`, `atan2`, `cos`, `sin`, `acos`)
  operates on real numbers (`ℝ`), with integer (`ℤ`) scaled points at its
  boundary, exactly as the source rounds every emitted coordinate;
* the two unbounded recursions of the source (the parser's main `while`
  loop and the recursive cubic subdivision) are driven by an explicit
  fuel parameter; the fuel for the parser is large enough to cover every
  terminating run of the source loop (a terminating run advances its
  position at least once per two iterations), and the flattener's fuel
  (subdivision depth) exceeds any depth reachable on the inputs considered.
* JS `parseFloat` yields `NaN` on a malformed numeric token; the model
  returns `0` there.  No statement proved below depends on the value
  produced for a malformed token.
-/

namespace GOP

/-- A 2-D point with rational coordinates (user space). -/
abbrev QPt := ℚ × ℚ

/-- A 2-D point with integer coordinates (scaled space). -/
abbrev IPt := ℤ × ℤ

/-! ## SVG path parser (port of `parseSvgPath`) -/

/-- Character class test `(ch >= 'A' && ch <= 'Z') || (ch >= 'a' && ch <= 'z')`. -/
def isLetter (c : Char) : Bool := ('A' ≤ c && c ≤ 'Z') || ('a' ≤ c && c ≤ 'z')

/-- Separator characters skipped between numbers (space, tab, newline, CR, comma). -/
def isSep (c : Char) : Bool := c = ' ' || c = '\t' || c = '\n' || c = '\r' || c = ','

/-- Whitespace removed by `String.prototype.trim` (ASCII subset used here). -/
def isWS (c : Char) : Bool := c = ' ' || c = '\t' || c = '\n' || c = '\r'

/-- Decimal digit test `ch >= '0' && ch <= '9'`. -/
def isDigit (c : Char) : Bool := '0' ≤ c && c ≤ '9'

/-- JS `pathData.trim()` on the character list. -/
def jsTrim (cs : List Char) : List Char :=
  ((cs.dropWhile isWS).reverse.dropWhile isWS).reverse

/-- Port of `skipSep`: advance past separators. -/
def skipSep (cs : List Char) : List Char := cs.dropWhile fun c => isSep c

/-- Value of a digit string, most significant first. -/
def digitsVal (ds : List Char) : ℕ := ds.foldl (fun n c => 10 * n + (c.toNat - '0'.toNat)) 0

/-- Port of `parseNumber`: scan `[+-]? digits* ('.' digits*)? ([eE] [+-]? digits*)?`
starting after separators, and return the `parseFloat` value of the scanned token
together with the remaining input.  `parseFloat` of a token with no digit in the
integer and fraction parts is `NaN` in JS; the model returns `0` there (see the
file comment).  A scanned exponent marker without digits is ignored by
`parseFloat` (longest valid prefix), which the model reproduces. -/
def parseNumber (cs0 : List Char) : ℚ × List Char :=
  let cs1 := skipSep cs0
  let sgn := match cs1 with
    | '-' :: t => (true, t)
    | '+' :: t => (false, t)
    | _ => (false, cs1)
  let neg := sgn.1
  let cs2 := sgn.2
  let intDs := cs2.takeWhile fun c => isDigit c
  let cs3 := cs2.dropWhile fun c => isDigit c
  let frac := match cs3 with
    | '.' :: t => (t.takeWhile fun c => isDigit c, t.dropWhile fun c => isDigit c)
    | _ => ([], cs3)
  let fracDs := frac.1
  let cs4 := frac.2
  let ex := match cs4 with
    | 'e' :: t | 'E' :: t =>
      let es := match t with
        | '-' :: u => (true, u)
        | '+' :: u => (false, u)
        | _ => (false, t)
      (es.2.takeWhile fun c => isDigit c, es.1, es.2.dropWhile fun c => isDigit c)
    | _ => ([], false, cs4)
  let expDs := ex.1
  let expNeg := ex.2.1
  let cs5 := ex.2.2
  if intDs = [] ∧ fracDs = [] then (0, cs5)
  else
    let mant : ℚ := (digitsVal intDs : ℚ) + (digitsVal fracDs : ℚ) / (10 : ℚ) ^ fracDs.length
    let signed : ℚ := if neg then -mant else mant
    let e : ℤ := if expDs = [] then 0
      else if expNeg then -(digitsVal expDs : ℤ) else (digitsVal expDs : ℤ)
    (signed * (10 : ℚ) ^ e, cs5)

/-- Parsed path segment (absolute coordinates), port of the `Segment` interface. -/
inductive Seg where
  | M (pto : QPt)
  | L (pto : QPt)
  | C (c1 c2 pto : QPt)
  | Q (ctrl pto : QPt)

/-- A subpath: ordered segments plus the closed flag. -/
structure Subpath where
  segs : List Seg
  closed : Bool

/-- Set the `closed` flag of the current subpath (port of the `Z` branch). -/
def closeCur : Option Subpath → Option Subpath
  | some sp => some { sp with closed := true }
  | none => none

/-- Completed subpaths followed by the still-active one, in creation order. -/
def flush (acc : List Subpath) (cur : Option Subpath) : List Subpath := acc ++ cur.toList

/-- Parser state: remaining input, pending command letter (`none` = JS `''`),
current point, completed subpaths, active subpath. -/
structure PState where
  rem : List Char
  cmd : Option Char
  cx : ℚ
  cy : ℚ
  acc : List Subpath
  cur : Option Subpath

/-- Append a `LineTo`; with no active subpath the source creates one whose
`MoveTo` sits at the same point (lines 132/138/144 of the source). -/
def addLineSeg (cur : Option Subpath) (p : QPt) : Option Subpath :=
  match cur with
  | some sp => some { sp with segs := sp.segs ++ [Seg.L p] }
  | none => some ⟨[Seg.M p, Seg.L p], false⟩

/-- Active subpath for curve commands; with none the source creates one whose
`MoveTo` sits at the current point (lines 155/164). -/
def ensureCur (cur : Option Subpath) (cx cy : ℚ) : Subpath :=
  match cur with
  | some sp => sp
  | none => ⟨[Seg.M (cx, cy)], false⟩

/-- One command dispatch of the parser loop (the `if/else` chain on `cmd`,
source lines 117-170, followed by the unconditional `skipSep` of line 172).
Returns the state with which the next loop iteration starts. -/
def parseDispatch (st : PState) : PState :=
  match st.cmd with
  | some 'M' | some 'm' =>
    let rel := st.cmd = some 'm'
    let n1 := parseNumber st.rem
    let n2 := parseNumber (skipSep n1.2)
    let ax := if rel then st.cx + n1.1 else n1.1
    let ay := if rel then st.cy + n2.1 else n2.1
    { rem := skipSep n2.2, cmd := if rel then some 'l' else some 'L',
      cx := ax, cy := ay, acc := flush st.acc st.cur,
      cur := some ⟨[Seg.M (ax, ay)], false⟩ }
  | some 'L' | some 'l' =>
    let rel := st.cmd = some 'l'
    let n1 := parseNumber st.rem
    let n2 := parseNumber (skipSep n1.2)
    let ax := if rel then st.cx + n1.1 else n1.1
    let ay := if rel then st.cy + n2.1 else n2.1
    { rem := skipSep n2.2, cmd := st.cmd, cx := ax, cy := ay,
      acc := st.acc, cur := addLineSeg st.cur (ax, ay) }
  | some 'H' | some 'h' =>
    let rel := st.cmd = some 'h'
    let n1 := parseNumber st.rem
    let ax := if rel then st.cx + n1.1 else n1.1
    { rem := skipSep n1.2, cmd := st.cmd, cx := ax, cy := st.cy,
      acc := st.acc, cur := addLineSeg st.cur (ax, st.cy) }
  | some 'V' | some 'v' =>
    let rel := st.cmd = some 'v'
    let n1 := parseNumber st.rem
    let ay := if rel then st.cy + n1.1 else n1.1
    { rem := skipSep n1.2, cmd := st.cmd, cx := st.cx, cy := ay,
      acc := st.acc, cur := addLineSeg st.cur (st.cx, ay) }
  | some 'C' | some 'c' =>
    let rel := st.cmd = some 'c'
    let n1 := parseNumber st.rem
    let n2 := parseNumber (skipSep n1.2)
    let n3 := parseNumber (skipSep n2.2)
    let n4 := parseNumber (skipSep n3.2)
    let n5 := parseNumber (skipSep n4.2)
    let n6 := parseNumber (skipSep n5.2)
    let c1 : QPt := if rel then (st.cx + n1.1, st.cy + n2.1) else (n1.1, n2.1)
    let c2 : QPt := if rel then (st.cx + n3.1, st.cy + n4.1) else (n3.1, n4.1)
    let pto : QPt := if rel then (st.cx + n5.1, st.cy + n6.1) else (n5.1, n6.1)
    let sp := ensureCur st.cur st.cx st.cy
    { rem := skipSep n6.2, cmd := st.cmd, cx := pto.1, cy := pto.2,
      acc := st.acc, cur := some { sp with segs := sp.segs ++ [Seg.C c1 c2 pto] } }
  | some 'Q' | some 'q' =>
    let rel := st.cmd = some 'q'
    let n1 := parseNumber st.rem
    let n2 := parseNumber (skipSep n1.2)
    let n3 := parseNumber (skipSep n2.2)
    let n4 := parseNumber (skipSep n3.2)
    let ctrl : QPt := if rel then (st.cx + n1.1, st.cy + n2.1) else (n1.1, n2.1)
    let pto : QPt := if rel then (st.cx + n3.1, st.cy + n4.1) else (n3.1, n4.1)
    let sp := ensureCur st.cur st.cx st.cy
    { rem := skipSep n4.2, cmd := st.cmd, cx := pto.1, cy := pto.2,
      acc := st.acc, cur := some { sp with segs := sp.segs ++ [Seg.Q ctrl pto] } }
  | _ =>
    { st with rem := skipSep (st.rem.drop 1) }

/-- The parser's main `while` loop (source lines 87-173).  Each JS iteration is
one recursive step; `continue` recurses directly and `break` / the loop
condition failing return the collected subpaths.  A terminating run of the
source loop advances the position at least once per two iterations, so fuel
`2 * length + 8` covers every terminating run (on the inputs where the source
loop diverges - a non-separator, non-numeric, non-letter character while a
coordinate command is pending - the model exhausts its fuel and returns). -/
def parseLoop : ℕ → PState → List Subpath
  | 0, st => flush st.acc st.cur
  | fuel + 1, st =>
    match st.rem with
    | [] => flush st.acc st.cur
    | ch :: rest =>
      let cmd := if isLetter ch then some ch else st.cmd
      let rem := if isLetter ch then skipSep rest else ch :: rest
      if cmd = some 'Z' ∨ cmd = some 'z' then
        parseLoop fuel { rem := skipSep rem, cmd := none, cx := st.cx, cy := st.cy,
                         acc := st.acc, cur := closeCur st.cur }
      else if cmd = none ∨ isSep ch then
        match skipSep rem with
        | [] => flush st.acc st.cur
        | nc :: rest2 =>
          if isLetter nc then
            parseLoop fuel { rem := nc :: rest2, cmd := cmd, cx := st.cx, cy := st.cy,
                             acc := st.acc, cur := st.cur }
          else if cmd = none then
            flush st.acc st.cur
          else
            parseLoop fuel (parseDispatch { rem := nc :: rest2, cmd := cmd, cx := st.cx,
                                            cy := st.cy, acc := st.acc, cur := st.cur })
      else
        match rem with
        | [] =>
          parseLoop fuel (parseDispatch { rem := [], cmd := cmd, cx := st.cx, cy := st.cy,
                                          acc := st.acc, cur := st.cur })
        | nc :: rest2 =>
          if isLetter nc then
            parseLoop fuel { rem := nc :: rest2, cmd := cmd, cx := st.cx, cy := st.cy,
                             acc := st.acc, cur := st.cur }
          else
            parseLoop fuel (parseDispatch { rem := nc :: rest2, cmd := cmd, cx := st.cx,
                                            cy := st.cy, acc := st.acc, cur := st.cur })

/-- Port of `parseSvgPath`. -/
def parseSvgPath (pathData : String) : List Subpath :=
  let cs := jsTrim pathData.data
  parseLoop (2 * cs.length + 8) { rem := cs, cmd := none, cx := 0, cy := 0, acc := [], cur := none }

/-! ## Bézier flattening (port of `flattenCubic` / `flattenQuadratic`) -/

/-- Port of `flattenCubic`.  The first argument is the recursion-depth fuel
standing in for the source's unbounded recursion; at fuel `0` the curve is
treated as flat (its endpoint is emitted), which no reachable input of the
statements below exercises. -/
def flattenCubic : ℕ → QPt → QPt → QPt → QPt → ℚ → List QPt
  | 0, _, _, _, p3, _ => [p3]
  | fuel + 1, p0, p1, p2, p3, tol =>
    let ux := 3 * p1.1 - 2 * p0.1 - p3.1
    let uy := 3 * p1.2 - 2 * p0.2 - p3.2
    let vx := 3 * p2.1 - 2 * p3.1 - p0.1
    let vy := 3 * p2.2 - 2 * p3.2 - p0.2
    if max (ux * ux + uy * uy) (vx * vx + vy * vy) ≤ 16 * tol * tol then [p3]
    else
      let m01 : QPt := ((p0.1 + p1.1) / 2, (p0.2 + p1.2) / 2)
      let m12 : QPt := ((p1.1 + p2.1) / 2, (p1.2 + p2.2) / 2)
      let m23 : QPt := ((p2.1 + p3.1) / 2, (p2.2 + p3.2) / 2)
      let m012 : QPt := ((m01.1 + m12.1) / 2, (m01.2 + m12.2) / 2)
      let m123 : QPt := ((m12.1 + m23.1) / 2, (m12.2 + m23.2) / 2)
      let mid : QPt := ((m012.1 + m123.1) / 2, (m012.2 + m123.2) / 2)
      flattenCubic fuel p0 m01 m012 mid tol ++ flattenCubic fuel mid m123 m23 p3 tol

/-- Port of `flattenQuadratic`: degree-elevate to a cubic and flatten. -/
def flattenQuadratic (fuel : ℕ) (p0 p1 p2 : QPt) (tol : ℚ) : List QPt :=
  let c1 : QPt := (p0.1 + (2 / 3) * (p1.1 - p0.1), p0.2 + (2 / 3) * (p1.2 - p0.2))
  let c2 : QPt := (p2.1 + (2 / 3) * (p1.1 - p2.1), p2.2 + (2 / 3) * (p1.2 - p2.2))
  flattenCubic fuel p0 c1 c2 p2 tol

/-! ## Shoelace winding sum (the `area` loop of `svgToPoints`) -/

/-- One shoelace summand `(x[j] - x[i]) * (y[j] + y[i])` for the edge `p -> q`. -/
def term (p q : IPt) : ℤ := (q.1 - p.1) * (q.2 + p.2)

/-- Sum of `term` over consecutive pairs of a vertex list (no wrap-around). -/
def segSum : List IPt → ℤ
  | p :: q :: t => term p q + segSum (q :: t)
  | _ => 0

/-- Last element of `a :: l`. -/
def last1 (a : IPt) : List IPt → IPt
  | [] => a
  | b :: t => last1 b t

/-- The source's `area` accumulator: shoelace sum over all edges including the
wrap-around edge from the last point back to the first. -/
def shoelace : List IPt → ℤ
  | [] => 0
  | h :: t => segSum (h :: t) + term (last1 h t) h

/-! ## `svgToPoints`: parse, flatten, scale, normalize winding -/

/-- Depth fuel handed to the flattener inside `svgToPoints` (the source
recursion never reaches this depth on the inputs considered here). -/
def FLATTEN_FUEL : ℕ := 64

/-- The float-point accumulation loop of `svgToPoints` (lines 223-238):
`M`/`L` push their endpoint, curves push their flattened points; the running
current point seeds each curve. -/
def subpathPoints (tol : ℚ) : List Seg → QPt → List QPt
  | [], _ => []
  | Seg.M p :: t, _ => p :: subpathPoints tol t p
  | Seg.L p :: t, _ => p :: subpathPoints tol t p
  | Seg.C c1 c2 p :: t, cur => flattenCubic FLATTEN_FUEL cur c1 c2 p tol ++ subpathPoints tol t p
  | Seg.Q c p :: t, cur => flattenQuadratic FLATTEN_FUEL cur c p tol ++ subpathPoints tol t p

/-- `svgToPoints` up to and including the integer scaling step: `none` when
there is no subpath or fewer than 3 flattened points, otherwise the
scaled-and-rounded point list of the first subpath. -/
def scaledPoints (pathData : String) (sc tol : ℚ) : Option (List IPt) :=
  match parseSvgPath pathData with
  | [] => none
  | sp :: _ =>
    let floatPts := subpathPoints tol sp.segs (0, 0)
    if floatPts.length < 3 then none
    else some (floatPts.map fun p => (round (p.1 * sc), round (p.2 * sc)))

/-- Port of `svgToPoints`: the scaled points with winding normalized
(reversed when the shoelace sum is positive). -/
def svgToPoints (pathData : String) (sc tol : ℚ) : Option (List IPt) :=
  (scaledPoints pathData sc tol).map fun pts =>
    if 0 < shoelace pts then pts.reverse else pts

/-! ## Bounding box and serializer -/

/-- Port of the `BBox` interface. -/
structure BBox where
  minX : ℤ
  minY : ℤ
  maxX : ℤ
  maxY : ℤ

/-- One folding step of `bbox` (the four `if` updates of lines 264-269). -/
def bboxStep (b : BBox) (p : IPt) : BBox :=
  ⟨min b.minX p.1, min b.minY p.2, max b.maxX p.1, max b.maxY p.2⟩

/-- Port of `bbox`; the source starts from infinities, so on a nonempty list
the fold from the first point is identical (the empty case, which the source
never reaches, yields the zero box here). -/
def bbox : List IPt → BBox
  | [] => ⟨0, 0, 0, 0⟩
  | p :: t => t.foldl bboxStep ⟨p.1, p.2, p.1, p.2⟩

/-- Two-digit zero padding for the serializer. -/
def pad2 (n : ℕ) : String := if n < 10 then "0" ++ toString n else toString n

/-- `(k / sc).toFixed(2)` idealized over exact rationals: round the scaled-down
coordinate to 2 decimal digits and print it.  No statement below depends on
the printed digits. -/
def fmt2 (k : ℤ) (sc : ℚ) : String :=
  let m : ℤ := round ((k : ℚ) / sc * 100)
  let s := if m < 0 then "-" else ""
  s ++ toString (m.natAbs / 100) ++ "." ++ pad2 (m.natAbs % 100)

/-- Port of `pointsToSvg`: `M x0 y0 L x1 y1 ... Z`, empty input giving `""`. -/
def pointsToSvg (pts : List IPt) (sc : ℚ) : String :=
  match pts with
  | [] => ""
  | p :: t =>
    (t.foldl (fun d q => d ++ " L " ++ fmt2 q.1 sc ++ " " ++ fmt2 q.2 sc)
      ("M " ++ fmt2 p.1 sc ++ " " ++ fmt2 p.2 sc)) ++ " Z"

/-! ## Join and end kinds (port of `types.ts`) -/

/-- Join types for offset corners (numeric values 0-3 in the source). -/
inductive JoinType where
  | Square
  | Bevel
  | Round
  | Miter
deriving DecidableEq

/-- End types for open path endings (numeric values 0-4 in the source). -/
inductive EndType where
  | Polygon
  | Joined
  | Butt
  | Square
  | Round
deriving DecidableEq

/-- A JS `number` offset amount: a finite real or one of the non-finite
values recognized by `isFinite`. -/
inductive JsNum where
  | val (x : ℝ)
  | nan
  | inf
  | negInf

/-! ## Real 2-D vector helpers (ports of the source's point helpers) -/

/-- Port of `sub`. -/
def sub (a b : ℝ × ℝ) : ℝ × ℝ := (a.1 - b.1, a.2 - b.2)

/-- Port of `add`. -/
def add (a b : ℝ × ℝ) : ℝ × ℝ := (a.1 + b.1, a.2 + b.2)

/-- Port of `scale2`. -/
def scale2 (a : ℝ × ℝ) (s : ℝ) : ℝ × ℝ := (a.1 * s, a.2 * s)

/-- Port of `dot` (computed but unused by the source's join logic). -/
def dot (a b : ℝ × ℝ) : ℝ := a.1 * b.1 + a.2 * b.2

/-- Port of `cross`. -/
def cross (a b : ℝ × ℝ) : ℝ := a.1 * b.2 - a.2 * b.1

/-- Port of `len`. -/
noncomputable def len (a : ℝ × ℝ) : ℝ := Real.sqrt (a.1 * a.1 + a.2 * a.2)

/-- Port of `norm`: unit vector, or `(0, 0)` below the `1e-10` length guard. -/
noncomputable def norm (a : ℝ × ℝ) : ℝ × ℝ :=
  let l := len a
  if 1e-10 < l then (a.1 / l, a.2 / l) else (0, 0)

/-- Port of `leftNormal` (outward normal for counter-clockwise polygons). -/
def leftNormal (e : ℝ × ℝ) : ℝ × ℝ := (-e.2, e.1)

/-- Cast a scaled integer point into the real plane. -/
def toR (p : IPt) : ℝ × ℝ := ((p.1 : ℝ), (p.2 : ℝ))

/-- `Math.round` on both coordinates, as applied at every `result.push`. -/
noncomputable def roundPt (p : ℝ × ℝ) : IPt := (round p.1, round p.2)

/-! ## Round joins and caps (port of `addRoundJoin`) -/

/-- JS `Math.atan2 y x`, with range `(-π, π]`. -/
noncomputable def atan2 (y x : ℝ) : ℝ := Complex.arg (x + y * Complex.I)

/-- The `while` normalization of `da` (source lines 302-303).  The loop's
input `a2 - a1` always lies in `(-2π, 2π)` because `atan2` ranges over
`(-π, π]`, so at most one correction fires and this conditional is exactly
the loop. -/
noncomputable def normDelta (da : ℝ) : ℝ :=
  if Real.pi < da then da - 2 * Real.pi
  else if da < -Real.pi then da + 2 * Real.pi
  else da

/-- Arc step count of `addRoundJoin` (source lines 305-306):
`steps = max(2, ceil(|da| / (2 * acos(1 - arcTolerance / r))))` with
`r = |offsetAmt|`.  JS arithmetic makes this chain non-finite outside the
regime `0 < arcTolerance / r ≤ 2`, and the loop
`for (i = 0; i <= steps; i++)` then runs zero times or forever:
* `r = 0`: `arcTolerance / 0` is `±Infinity` (`NaN` at `0/0`), so the
  `acos` argument is non-finite and `acos` returns `NaN`; `steps` is `NaN`
  and the loop body never runs - zero points;
* `arcTolerance / r < 0` or `arcTolerance / r > 2`: the `acos` argument
  `1 - arcTolerance / r` leaves `[-1, 1]`, `acos` returns `NaN`, `steps`
  is `NaN` - zero points;
* `arcTolerance / r = 0` (i.e. `arcTolerance = 0` with `r > 0`):
  `acos(1) = 0`, so `|da| / 0` is `Infinity` when `da ≠ 0` - the source
  loop never terminates - and `NaN` when `da = 0` - zero points.
`some s` is the finite JS step count; `none` covers every input on which
the source pushes no points, plus the `arcTolerance = 0, da ≠ 0` line on
which the source diverges - mapping that divergent line to an empty
emission is the declared idealization of a non-terminating run, and no
statement below relies on it. -/
noncomputable def arcSteps (da offsetAmt arcTol : ℝ) : Option ℤ :=
  let r := |offsetAmt|
  if 0 < r ∧ 0 < arcTol / r ∧ arcTol / r ≤ 2 then
    some (max 2 ⌈|da| / (2 * Real.arccos (1 - arcTol / r))⌉)
  else none

/-- Port of `addRoundJoin`: when the JS step count is the finite `s`, the
`s + 1` arc points pushed for a round join or cap, each rounded to integers
at emission; when it is `NaN` (`arcSteps` returns `none`) the source loop
runs zero times and nothing is pushed. -/
noncomputable def addRoundJoin (cx cy : ℝ) (n1 n2 : ℝ × ℝ) (offsetAmt arcTol : ℝ) :
    List IPt :=
  let a1 := atan2 n1.2 n1.1
  let a2 := atan2 n2.2 n2.1
  let da := normDelta (a2 - a1)
  match arcSteps da offsetAmt arcTol with
  | none => []
  | some steps =>
    let stepAngle := da / (steps : ℝ)
    (List.range (steps.toNat + 1)).map fun (i : ℕ) =>
      (round (cx + Real.cos (a1 + stepAngle * (i : ℝ)) * offsetAmt),
       round (cy + Real.sin (a1 + stepAngle * (i : ℝ)) * offsetAmt))

/-! ## The offset engine (port of `offsetPolygon`) -/

/-- The per-vertex join body of `offsetPolygon`'s main loop (source lines
331-394) at a vertex `curr` with neighbors `prev` and `next`. -/
noncomputable def joinVertex (prev curr next : IPt) (offsetAmt : ℝ) (jt : JoinType)
    (miterLimit arcTol : ℝ) : List IPt :=
  let e1 := norm (sub (toR curr) (toR prev))
  let e2 := norm (sub (toR next) (toR curr))
  let outN1 := leftNormal e1
  let outN2 := leftNormal e2
  let cr := cross e1 e2
  let offsetDir : ℝ := if 0 < offsetAmt then 1 else -1
  if ¬ 0 < cr * offsetDir ∨ |cr| < 1e-6 then
    let bisect := norm (add outN1 outN2)
    let sinHalf := cross e1 bisect
    if |sinHalf| < 1e-6 then
      [roundPt (add (toR curr) (scale2 outN1 offsetAmt))]
    else
      [roundPt (add (toR curr) (scale2 bisect (offsetAmt / sinHalf)))]
  else
    match jt with
    | JoinType.Miter =>
      let bisect := norm (add outN1 outN2)
      let sinHalf := cross e1 bisect
      if 1e-6 < |sinHalf| ∧ |offsetAmt / sinHalf| ≤ miterLimit * |offsetAmt| then
        [roundPt (add (toR curr) (scale2 bisect (offsetAmt / sinHalf)))]
      else
        [roundPt (add (toR curr) (scale2 outN1 offsetAmt)),
         roundPt (add (toR curr) (scale2 outN2 offsetAmt))]
    | JoinType.Bevel | JoinType.Square =>
      [roundPt (add (toR curr) (scale2 outN1 offsetAmt)),
       roundPt (add (toR curr) (scale2 outN2 offsetAmt))]
    | JoinType.Round =>
      addRoundJoin (toR curr).1 (toR curr).2 outN1 outN2 offsetAmt arcTol

/-- The end kinds treated as open paths (source line 328). -/
def isOpenEnd (et : EndType) : Bool :=
  et = EndType.Butt || et = EndType.Square || et = EndType.Round

/-- The main vertex loop of `offsetPolygon`: the join body applied at
vertices `0 .. count - 1`, neighbors indexed cyclically. -/
noncomputable def joinLoop (pts : List IPt) (offsetAmt : ℝ) (jt : JoinType)
    (miterLimit arcTol : ℝ) (count : ℕ) : List IPt :=
  let n := pts.length
  (List.range count).flatMap fun i =>
    joinVertex (pts.getD ((i + n - 1) % n) (0, 0)) (pts.getD i (0, 0))
      (pts.getD ((i + 1) % n) (0, 0)) offsetAmt jt miterLimit arcTol

/-- The open-path end-cap stage of `offsetPolygon` (source lines 398-429):
start cap then end cap applied around the loop result.  The square start
cap prepends its two points (`unshift`); the round caps append their arc. -/
noncomputable def capApply (pts : List IPt) (offsetAmt arcTol : ℝ) (et : EndType)
    (loopPts : List IPt) : List IPt :=
  let n := pts.length
  if isOpenEnd et ∧ 2 ≤ n then
    let startPt := pts.getD 0 (0, 0)
    let startEdge := norm (sub (toR (pts.getD 1 (0, 0))) (toR startPt))
    let startNorm := leftNormal startEdge
    let backDir : ℝ × ℝ := (-startEdge.1, -startEdge.2)
    let afterStart :=
      if et = EndType.Round then
        loopPts ++ addRoundJoin (toR startPt).1 (toR startPt).2
          (-startNorm.1, -startNorm.2) startNorm offsetAmt arcTol
      else if et = EndType.Square then
        roundPt (add (toR startPt) (add (scale2 startNorm (-offsetAmt)) (scale2 backDir offsetAmt))) ::
        roundPt (add (toR startPt) (add (scale2 startNorm offsetAmt) (scale2 backDir offsetAmt))) ::
        loopPts
      else loopPts
    let endPt := pts.getD (n - 1) (0, 0)
    let endEdge := norm (sub (toR endPt) (toR (pts.getD (n - 2) (0, 0))))
    let endNorm := leftNormal endEdge
    if et = EndType.Round then
      afterStart ++ addRoundJoin (toR endPt).1 (toR endPt).2 endNorm
        (-endNorm.1, -endNorm.2) offsetAmt arcTol
    else if et = EndType.Square then
      afterStart ++
        [roundPt (add (toR endPt) (add (scale2 endNorm offsetAmt) (scale2 endEdge offsetAmt))),
         roundPt (add (toR endPt) (add (scale2 endNorm (-offsetAmt)) (scale2 endEdge offsetAmt)))]
    else afterStart
  else loopPts

/-- Port of `offsetPolygon`. -/
noncomputable def offsetPolygon (pts : List IPt) (offsetAmt : ℝ) (jt : JoinType)
    (et : EndType) (miterLimit arcTol : ℝ) : List IPt :=
  if pts.length < 3 then []
  else
    capApply pts offsetAmt arcTol et
      (joinLoop pts offsetAmt jt miterLimit arcTol
        (if isOpenEnd et then pts.length - 1 else pts.length))

/-! ## Anchor translation and the top-level entry point -/

/-- Anchor coordinate `min + (max - min) * fraction` on one axis of a box. -/
def anchorCoord (lo hi : ℤ) (f : ℝ) : ℝ := (lo : ℝ) + ((hi : ℝ) - (lo : ℝ)) * f

/-- The per-axis translation of the anchor stage (source lines 464-471):
`round(originAnchor - offsetAnchor)` when the fraction is configured, `0`
otherwise. -/
noncomputable def anchorDelta (lo hi lo' hi' : ℤ) : Option ℝ → ℤ
  | some f => round (anchorCoord lo hi f - anchorCoord lo' hi' f)
  | none => 0

/-- The anchor-translation stage of `offsetSvgPath` (source lines 460-476). -/
noncomputable def anchorTranslate (pts offsetPts : List IPt) (ox oy : Option ℝ) :
    List IPt :=
  if ox = none ∧ oy = none then offsetPts
  else
    let origBox := bbox pts
    let offBox := bbox offsetPts
    let dx := anchorDelta origBox.minX origBox.maxX offBox.minX offBox.maxX ox
    let dy := anchorDelta origBox.minY origBox.maxY offBox.minY offBox.maxY oy
    if dx = 0 ∧ dy = 0 then offsetPts
    else offsetPts.map fun p => (p.1 + dx, p.2 + dy)

/-- Scale factor (source line 8), used on the rational side. -/
def SCALE : ℚ := 1000

/-- Flatten tolerance (source line 9). -/
def FLATTEN_TOLERANCE : ℚ := 1 / 10

/-- Port of `offsetSvgPath`.  The JS `number` offset argument is modelled by
`JsNum`; the join/end configuration arrives as the typed enums (the source
casts its numeric arguments to the same enums). -/
noncomputable def offsetSvgPath (pathData : String) (offsetAmt : JsNum)
    (jt : JoinType) (et : EndType) (miterLimit arcTol : ℝ)
    (ox oy : Option ℝ) : String :=
  match offsetAmt with
  | JsNum.nan | JsNum.inf | JsNum.negInf => pathData
  | JsNum.val v =>
    if |v| < 0.001 then pathData
    else
      match svgToPoints pathData SCALE FLATTEN_TOLERANCE with
      | none => ""
      | some pts =>
        if pts.length < 3 then ""
        else
          let offsetPts := offsetPolygon pts (v * 1000) jt et miterLimit arcTol
          if offsetPts.length < 3 then ""
          else pointsToSvg (anchorTranslate pts offsetPts ox oy) SCALE

/-! ## Claim C1: identity for non-finite or sub-threshold offsets -/

/-- C1: for every path-data string, every configuration, and every offset
amount that is not finite or has absolute value below `0.001` (in particular
zero), `offsetSvgPath` returns the input string unchanged. -/
theorem c1_identity_small_offset (pathData : String) (a : JsNum)
    (jt : JoinType) (et : EndType) (miterLimit arcTol : ℝ) (ox oy : Option ℝ)
    (h : a = JsNum.nan ∨ a = JsNum.inf ∨ a = JsNum.negInf ∨
      ∃ v, a = JsNum.val v ∧ |v| < 0.001) :
    offsetSvgPath pathData a jt et miterLimit arcTol ox oy = pathData := by
  rcases h with rfl | rfl | rfl | ⟨v, rfl, hv⟩
  · rfl
  · rfl
  · rfl
  · simp only [offsetSvgPath, if_pos hv]

/-- C1 witness: the zero offset at a concrete path and configuration. -/
theorem c1_witness :
    (JsNum.val (0 : ℝ) = JsNum.nan ∨ JsNum.val (0 : ℝ) = JsNum.inf ∨
      JsNum.val (0 : ℝ) = JsNum.negInf ∨
      ∃ v, JsNum.val (0 : ℝ) = JsNum.val v ∧ |v| < 0.001) ∧
    offsetSvgPath "M 0 0 L 10 0 L 10 10 Z" (JsNum.val 0) JoinType.Round
      EndType.Polygon 2 (1 / 4) none none = "M 0 0 L 10 0 L 10 10 Z" := by
  refine ⟨Or.inr (Or.inr (Or.inr ⟨0, rfl, by norm_num⟩)), ?_⟩
  exact c1_identity_small_offset _ _ _ _ _ _ _ _
    (Or.inr (Or.inr (Or.inr ⟨0, rfl, by norm_num⟩)))

/-! ## Claim C6: structure of the cubic flattener -/

/-- C6: for a positive tolerance, one step of `flattenCubic` appends exactly
the endpoint `p3` (and nothing else) when `max(|u|², |v|²) ≤ 16ε²` with
`u = 3p1 - 2p0 - p3` and `v = 3p2 - 2p3 - p0`, and otherwise appends the
left-half recursion followed by the right-half recursion of the exact
midpoint de Casteljau subdivision; the start point is never appended (in
particular the list always ends in the endpoint `p3`); a quadratic is
degree-elevated to the cubic with control points `p0 + ⅔(p1-p0)` and
`p2 + ⅔(p1-p2)` and flattened by the same routine. -/
theorem c6_flatten_structure (tol : ℚ) (htol : 0 < tol) :
    (∀ (fuel : ℕ) (p0 p1 p2 p3 : QPt),
      flattenCubic (fuel + 1) p0 p1 p2 p3 tol =
        (let ux := 3 * p1.1 - 2 * p0.1 - p3.1
         let uy := 3 * p1.2 - 2 * p0.2 - p3.2
         let vx := 3 * p2.1 - 2 * p3.1 - p0.1
         let vy := 3 * p2.2 - 2 * p3.2 - p0.2
         if max (ux * ux + uy * uy) (vx * vx + vy * vy) ≤ 16 * tol * tol then [p3]
         else
           let m01 : QPt := ((p0.1 + p1.1) / 2, (p0.2 + p1.2) / 2)
           let m12 : QPt := ((p1.1 + p2.1) / 2, (p1.2 + p2.2) / 2)
           let m23 : QPt := ((p2.1 + p3.1) / 2, (p2.2 + p3.2) / 2)
           let m012 : QPt := ((m01.1 + m12.1) / 2, (m01.2 + m12.2) / 2)
           let m123 : QPt := ((m12.1 + m23.1) / 2, (m12.2 + m23.2) / 2)
           let mid : QPt := ((m012.1 + m123.1) / 2, (m012.2 + m123.2) / 2)
           flattenCubic fuel p0 m01 m012 mid tol ++
             flattenCubic fuel mid m123 m23 p3 tol)) ∧
    (∀ (fuel : ℕ) (p0 p1 p2 : QPt),
      flattenQuadratic fuel p0 p1 p2 tol =
        flattenCubic fuel p0
          (p0.1 + 2 / 3 * (p1.1 - p0.1), p0.2 + 2 / 3 * (p1.2 - p0.2))
          (p2.1 + 2 / 3 * (p1.1 - p2.1), p2.2 + 2 / 3 * (p1.2 - p2.2)) p2 tol) ∧
    (∀ (fuel : ℕ) (p0 p1 p2 p3 : QPt),
      (flattenCubic fuel p0 p1 p2 p3 tol).getLast? = some p3) := by
  refine ⟨fun fuel p0 p1 p2 p3 => rfl, fun fuel p0 p1 p2 => rfl, ?_⟩
  intro fuel
  induction fuel with
  | zero => intro p0 p1 p2 p3; rfl
  | succ fuel ih =>
    intro p0 p1 p2 p3
    have hne : ∀ a b c d : QPt, flattenCubic fuel a b c d tol ≠ [] := by
      intro a b c d hcontra
      have h2 := ih a b c d
      rw [hcontra] at h2
      exact Option.noConfusion h2
    show (flattenCubic (fuel + 1) p0 p1 p2 p3 tol).getLast? = some p3
    rw [flattenCubic]
    split
    · rfl
    · rw [List.getLast?_append_of_ne_nil _ (hne _ _ _ _)]
      exact ih _ _ _ _

/-- C6 witness: a flat cubic at tolerance `1/10` flattens to its endpoint. -/
theorem c6_witness :
    (0 : ℚ) < 1 / 10 ∧
    flattenCubic 1 (0, 0) (0, 0) (0, 0) (0, 0) (1 / 10) = [((0 : ℚ), (0 : ℚ))] := by
  have h := c6_flatten_structure (1 / 10) (by norm_num)
  refine ⟨by norm_num, ?_⟩
  rw [h.1 0 (0, 0) (0, 0) (0, 0) (0, 0)]
  norm_num

/-! ## Shoelace lemmas and Claim C3: winding normalization -/

theorem term_swap (p q : IPt) : term q p = -term p q := by
  unfold term; ring

theorem segSum_cons_cons (p q : IPt) (t : List IPt) :
    segSum (p :: q :: t) = term p q + segSum (q :: t) := rfl

theorem segSum_append_pair (l : List IPt) (a b : IPt) :
    segSum (l ++ [a, b]) = segSum (l ++ [a]) + term a b := by
  induction l with
  | nil => simp [segSum]
  | cons x l' ih =>
    cases l' with
    | nil => simp [segSum]
    | cons y t' =>
      simp only [List.cons_append] at ih ⊢
      rw [segSum_cons_cons x y (t' ++ [a, b]), segSum_cons_cons x y (t' ++ [a]), ih]
      ring

theorem last1_append_singleton (l : List IPt) (x a : IPt) :
    last1 x (l ++ [a]) = a := by
  induction l generalizing x with
  | nil => rfl
  | cons b t ih => exact ih b

theorem last1_of_eq_append (l : List IPt) (a x : IPt) (m : List IPt)
    (h : l ++ [a] = x :: m) : last1 x m = a := by
  cases l with
  | nil =>
    simp only [List.nil_append, List.cons.injEq] at h
    rw [← h.1, ← h.2]
    rfl
  | cons b t =>
    simp only [List.cons_append, List.cons.injEq] at h
    rw [← h.1, ← h.2]
    exact last1_append_singleton t b a

theorem reverse_cons_structure (t : List IPt) (h : IPt) :
    ∃ m, (h :: t).reverse = last1 h t :: m := by
  induction t generalizing h with
  | nil => exact ⟨[], rfl⟩
  | cons y t' ih =>
    obtain ⟨m', hm'⟩ := ih y
    refine ⟨m' ++ [h], ?_⟩
    rw [List.reverse_cons, hm']
    rfl

theorem segSum_reverse_cons (l : List IPt) (x : IPt) :
    segSum ((x :: l).reverse) = -segSum (x :: l) := by
  induction l generalizing x with
  | nil => simp [segSum]
  | cons y t ih =>
    rw [List.reverse_cons, List.reverse_cons, List.append_assoc]
    have h1 : ([y] ++ [x] : List IPt) = [y, x] := rfl
    rw [h1, segSum_append_pair t.reverse y x, ← List.reverse_cons, ih y,
      segSum_cons_cons x y t, term_swap]
    ring

/-- Reversing a vertex list negates the cyclic shoelace sum. -/
theorem shoelace_reverse (l : List IPt) : shoelace l.reverse = -shoelace l := by
  cases l with
  | nil => simp [shoelace]
  | cons h t =>
    obtain ⟨m, hm⟩ := reverse_cons_structure t h
    have hlast : last1 (last1 h t) m = h := by
      apply last1_of_eq_append t.reverse h
      rw [← List.reverse_cons]
      exact hm
    have hseg : segSum (last1 h t :: m) = -segSum (h :: t) := by
      rw [← hm]
      exact segSum_reverse_cons t h
    rw [hm]
    show segSum (last1 h t :: m) + term (last1 (last1 h t) m) (last1 h t) =
      -(segSum (h :: t) + term (last1 h t) h)
    rw [hlast, hseg, term_swap]
    ring

/-- The winding branch of `svgToPoints` always yields a nonpositive sum. -/
theorem shoelace_branch_nonpos (l : List IPt) :
    shoelace (if 0 < shoelace l then l.reverse else l) ≤ 0 := by
  split
  · rw [shoelace_reverse]; omega
  · omega

/-- C3: whenever `svgToPoints` succeeds (the flattened first subpath had at
least 3 points), the returned scaled polygon has shoelace sum
`Σ (x[i+1] - x[i]) * (y[i+1] + y[i]) ≤ 0` (counter-clockwise in this sign
convention); it is exactly the reversal of the scaled point list when that
list's shoelace sum is positive, and that list unchanged otherwise. -/
theorem c3_winding_normalization (pathData : String) (sc tol : ℚ) (pts : List IPt)
    (h : svgToPoints pathData sc tol = some pts) :
    shoelace pts ≤ 0 ∧
    ∃ scaled, scaledPoints pathData sc tol = some scaled ∧
      pts = if 0 < shoelace scaled then scaled.reverse else scaled := by
  unfold svgToPoints at h
  cases hs : scaledPoints pathData sc tol with
  | none => rw [hs] at h; simp at h
  | some scaled =>
    rw [hs] at h
    simp only [Option.map_some', Option.some.injEq] at h
    refine ⟨?_, scaled, rfl, h.symm⟩
    rw [← h]
    exact shoelace_branch_nonpos scaled

/-- C3 witness: a clockwise triangle is reversed into counter-clockwise
order by `svgToPoints`. -/
theorem c3_witness :
    svgToPoints "M 0 0 L 0 10 L 10 10" 1000 (1 / 10) =
      some [((10000 : ℤ), (10000 : ℤ)), (0, 10000), (0, 0)] ∧
    (shoelace [((10000 : ℤ), (10000 : ℤ)), (0, 10000), (0, 0)] ≤ 0 ∧
      ∃ scaled, scaledPoints "M 0 0 L 0 10 L 10 10" 1000 (1 / 10) = some scaled ∧
        [((10000 : ℤ), (10000 : ℤ)), (0, 10000), (0, 0)] =
          if 0 < shoelace scaled then scaled.reverse else scaled) := by
  have hin : svgToPoints "M 0 0 L 0 10 L 10 10" 1000 (1 / 10) =
      some [((10000 : ℤ), (10000 : ℤ)), (0, 10000), (0, 0)] := by
    with_unfolding_all rfl
  exact ⟨hin, c3_winding_normalization _ _ _ _ hin⟩

/-! ## Claim C2: degenerate inputs yield the empty-string sentinel -/

/-- C2 counterexample: an input with no Move command at all still parses
into a 4-point polygon, because the source auto-creates a subpath when a
`L`/`H`/`V`/`C`/`Q` command arrives with no current subpath (source line
132).  Hence "inputs with no valid Move command" do not, as the claim
states, fall into the fewer-than-3-points bucket that produces the empty
sentinel. -/
theorem c2_counterexample_no_move_command :
    svgToPoints "L 0 0 L 10 0 L 10 10" 1000 (1 / 10) =
      some [((0 : ℤ), (0 : ℤ)), (0, 0), (10000, 0), (10000, 10000)] ∧
    ¬ ([((0 : ℤ), (0 : ℤ)), (0, 0), (10000, 0), (10000, 10000)].length < 3) := by
  exact ⟨by with_unfolding_all rfl, by decide⟩

/-- C2 (amended): for every finite offset with `|offset| ≥ 0.001`, if
parsing/flattening/scaling yields no polygon or fewer than 3 points
(including for the empty string), or if the offset engine's result has
fewer than 3 points, then `offsetSvgPath` returns the empty string; the
embedding is a total function, so this sentinel - not an exception - is the
failure signal at the public boundary. -/
theorem c2_empty_sentinel (pathData : String) (v : ℝ) (jt : JoinType)
    (et : EndType) (miterLimit arcTol : ℝ) (ox oy : Option ℝ)
    (hv : ¬ |v| < 0.001)
    (hdeg : svgToPoints pathData SCALE FLATTEN_TOLERANCE = none ∨
      ∃ l, svgToPoints pathData SCALE FLATTEN_TOLERANCE = some l ∧
        (l.length < 3 ∨
          (offsetPolygon l (v * 1000) jt et miterLimit arcTol).length < 3)) :
    offsetSvgPath pathData (JsNum.val v) jt et miterLimit arcTol ox oy = "" := by
  simp only [offsetSvgPath]
  rw [if_neg hv]
  rcases hdeg with hnone | ⟨l, hl, hcase⟩
  · rw [hnone]
  · rw [hl]
    rcases hcase with hlen | hoff
    · simp [hlen]
    · by_cases h3 : l.length < 3
      · simp [h3]
      · simp [h3, hoff]

/-- C2 witness: the empty string with offset 1 returns the empty sentinel. -/
theorem c2_witness :
    (¬ |(1 : ℝ)| < 0.001 ∧ svgToPoints "" SCALE FLATTEN_TOLERANCE = none) ∧
    offsetSvgPath "" (JsNum.val 1) JoinType.Round EndType.Polygon 2 (1 / 4)
      none none = "" := by
  have hnone : svgToPoints "" SCALE FLATTEN_TOLERANCE = none := by
    with_unfolding_all rfl
  refine ⟨⟨by norm_num, hnone⟩, ?_⟩
  exact c2_empty_sentinel "" 1 _ _ _ _ _ _ (by norm_num) (Or.inl hnone)

/-! ## Claim C9: anchor translation -/

theorem bboxStep_shift (b : BBox) (p : IPt) (dx dy : ℤ) :
    bboxStep ⟨b.minX + dx, b.minY + dy, b.maxX + dx, b.maxY + dy⟩ (p.1 + dx, p.2 + dy) =
      ⟨(bboxStep b p).minX + dx, (bboxStep b p).minY + dy,
       (bboxStep b p).maxX + dx, (bboxStep b p).maxY + dy⟩ := by
  simp [bboxStep, min_add_add_right, max_add_add_right]

theorem bbox_foldl_shift (t : List IPt) (dx dy : ℤ) (b : BBox) :
    (t.map fun p => (p.1 + dx, p.2 + dy)).foldl bboxStep
        ⟨b.minX + dx, b.minY + dy, b.maxX + dx, b.maxY + dy⟩ =
      ⟨(t.foldl bboxStep b).minX + dx, (t.foldl bboxStep b).minY + dy,
       (t.foldl bboxStep b).maxX + dx, (t.foldl bboxStep b).maxY + dy⟩ := by
  induction t generalizing b with
  | nil => rfl
  | cons p t ih =>
    simp only [List.map_cons, List.foldl_cons]
    rw [bboxStep_shift b p dx dy]
    exact ih (bboxStep b p)

/-- Translating every point translates the bounding box. -/
theorem bbox_map_shift (l : List IPt) (hl : l ≠ []) (dx dy : ℤ) :
    bbox (l.map fun p => (p.1 + dx, p.2 + dy)) =
      ⟨(bbox l).minX + dx, (bbox l).minY + dy,
       (bbox l).maxX + dx, (bbox l).maxY + dy⟩ := by
  cases l with
  | nil => exact absurd rfl hl
  | cons p t =>
    show (t.map fun q => (q.1 + dx, q.2 + dy)).foldl bboxStep
        ⟨p.1 + dx, p.2 + dy, p.1 + dx, p.2 + dy⟩ = _
    exact bbox_foldl_shift t dx dy ⟨p.1, p.2, p.1, p.2⟩

theorem anchorCoord_add (lo hi dx : ℤ) (f : ℝ) :
    anchorCoord (lo + dx) (hi + dx) f = anchorCoord lo hi f + (dx : ℝ) := by
  unfold anchorCoord
  push_cast
  ring

/-- C9: the translation applied on a configured axis is the integer
`round(originAnchor - offsetAnchor)` computed from the two bounding boxes and
is added to every output point; after translation the anchor coordinate of
the result's bounding box matches the original's within 1 scaled unit; an
axis without a configured anchor is left untranslated. -/
theorem c9_anchor_translation (pts offsetPts : List IPt) (ox oy : Option ℝ)
    (hne : offsetPts ≠ []) :
    (anchorTranslate pts offsetPts ox oy =
      offsetPts.map fun p =>
        (p.1 + anchorDelta (bbox pts).minX (bbox pts).maxX
            (bbox offsetPts).minX (bbox offsetPts).maxX ox,
         p.2 + anchorDelta (bbox pts).minY (bbox pts).maxY
            (bbox offsetPts).minY (bbox offsetPts).maxY oy)) ∧
    (∀ f, ox = some f →
      |anchorCoord (bbox pts).minX (bbox pts).maxX f -
        anchorCoord (bbox (anchorTranslate pts offsetPts ox oy)).minX
          (bbox (anchorTranslate pts offsetPts ox oy)).maxX f| ≤ 1) ∧
    (∀ f, oy = some f →
      |anchorCoord (bbox pts).minY (bbox pts).maxY f -
        anchorCoord (bbox (anchorTranslate pts offsetPts ox oy)).minY
          (bbox (anchorTranslate pts offsetPts ox oy)).maxY f| ≤ 1) ∧
    (ox = none →
      (anchorTranslate pts offsetPts ox oy).map Prod.fst = offsetPts.map Prod.fst) ∧
    (oy = none →
      (anchorTranslate pts offsetPts ox oy).map Prod.snd = offsetPts.map Prod.snd) := by
  have hmain : anchorTranslate pts offsetPts ox oy =
      offsetPts.map fun p =>
        (p.1 + anchorDelta (bbox pts).minX (bbox pts).maxX
            (bbox offsetPts).minX (bbox offsetPts).maxX ox,
         p.2 + anchorDelta (bbox pts).minY (bbox pts).maxY
            (bbox offsetPts).minY (bbox offsetPts).maxY oy) := by
    unfold anchorTranslate
    split
    · next hcase =>
      rw [hcase.1, hcase.2]
      show offsetPts = offsetPts.map fun p => (p.1 + 0, p.2 + 0)
      simp
    · dsimp only
      split
      · next hcase =>
        rw [hcase.1, hcase.2]
        simp
      · rfl
  have hbox : bbox (anchorTranslate pts offsetPts ox oy) =
      ⟨(bbox offsetPts).minX + anchorDelta (bbox pts).minX (bbox pts).maxX
          (bbox offsetPts).minX (bbox offsetPts).maxX ox,
       (bbox offsetPts).minY + anchorDelta (bbox pts).minY (bbox pts).maxY
          (bbox offsetPts).minY (bbox offsetPts).maxY oy,
       (bbox offsetPts).maxX + anchorDelta (bbox pts).minX (bbox pts).maxX
          (bbox offsetPts).minX (bbox offsetPts).maxX ox,
       (bbox offsetPts).maxY + anchorDelta (bbox pts).minY (bbox pts).maxY
          (bbox offsetPts).minY (bbox offsetPts).maxY oy⟩ := by
    rw [hmain]
    exact bbox_map_shift offsetPts hne _ _
  refine ⟨hmain, ?_, ?_, ?_, ?_⟩
  · intro f hf
    subst hf
    rw [hbox]
    simp only [anchorDelta]
    rw [anchorCoord_add]
    have := abs_sub_round (anchorCoord (bbox pts).minX (bbox pts).maxX f -
      anchorCoord (bbox offsetPts).minX (bbox offsetPts).maxX f)
    rw [show anchorCoord (bbox pts).minX (bbox pts).maxX f -
        (anchorCoord (bbox offsetPts).minX (bbox offsetPts).maxX f +
          (round (anchorCoord (bbox pts).minX (bbox pts).maxX f -
            anchorCoord (bbox offsetPts).minX (bbox offsetPts).maxX f) : ℝ)) =
        (anchorCoord (bbox pts).minX (bbox pts).maxX f -
          anchorCoord (bbox offsetPts).minX (bbox offsetPts).maxX f) -
        (round (anchorCoord (bbox pts).minX (bbox pts).maxX f -
          anchorCoord (bbox offsetPts).minX (bbox offsetPts).maxX f) : ℝ) from by ring]
    linarith
  · intro f hf
    subst hf
    rw [hbox]
    simp only [anchorDelta]
    rw [anchorCoord_add]
    have := abs_sub_round (anchorCoord (bbox pts).minY (bbox pts).maxY f -
      anchorCoord (bbox offsetPts).minY (bbox offsetPts).maxY f)
    rw [show anchorCoord (bbox pts).minY (bbox pts).maxY f -
        (anchorCoord (bbox offsetPts).minY (bbox offsetPts).maxY f +
          (round (anchorCoord (bbox pts).minY (bbox pts).maxY f -
            anchorCoord (bbox offsetPts).minY (bbox offsetPts).maxY f) : ℝ)) =
        (anchorCoord (bbox pts).minY (bbox pts).maxY f -
          anchorCoord (bbox offsetPts).minY (bbox offsetPts).maxY f) -
        (round (anchorCoord (bbox pts).minY (bbox pts).maxY f -
          anchorCoord (bbox offsetPts).minY (bbox offsetPts).maxY f) : ℝ) from by ring]
    linarith
  · intro hx
    subst hx
    rw [hmain]
    simp [anchorDelta]
  · intro hy
    subst hy
    rw [hmain]
    simp [anchorDelta]

/-- C9 witness: a concrete anchor configuration on the x axis only. -/
theorem c9_witness :
    ([((2 : ℤ), (2 : ℤ)), (6, 4)] : List IPt) ≠ [] ∧
    (anchorTranslate [(0, 0), (10, 10)] [(2, 2), (6, 4)] (some (1 / 2)) none =
      [(2, 2), (6, 4)].map fun p =>
        (p.1 + anchorDelta (bbox [(0, 0), (10, 10)]).minX (bbox [(0, 0), (10, 10)]).maxX
            (bbox [(2, 2), (6, 4)]).minX (bbox [(2, 2), (6, 4)]).maxX (some (1 / 2)),
         p.2 + anchorDelta (bbox [(0, 0), (10, 10)]).minY (bbox [(0, 0), (10, 10)]).maxY
            (bbox [(2, 2), (6, 4)]).minY (bbox [(2, 2), (6, 4)]).maxY none)) ∧
    (∀ f, (some (1 / 2) : Option ℝ) = some f →
      |anchorCoord (bbox [((0 : ℤ), (0 : ℤ)), (10, 10)]).minX
          (bbox [((0 : ℤ), (0 : ℤ)), (10, 10)]).maxX f -
        anchorCoord (bbox (anchorTranslate [(0, 0), (10, 10)] [(2, 2), (6, 4)]
            (some (1 / 2)) none)).minX
          (bbox (anchorTranslate [(0, 0), (10, 10)] [(2, 2), (6, 4)]
            (some (1 / 2)) none)).maxX f| ≤ 1) ∧
    (∀ f, (none : Option ℝ) = some f →
      |anchorCoord (bbox [((0 : ℤ), (0 : ℤ)), (10, 10)]).minY
          (bbox [((0 : ℤ), (0 : ℤ)), (10, 10)]).maxY f -
        anchorCoord (bbox (anchorTranslate [(0, 0), (10, 10)] [(2, 2), (6, 4)]
            (some (1 / 2)) none)).minY
          (bbox (anchorTranslate [(0, 0), (10, 10)] [(2, 2), (6, 4)]
            (some (1 / 2)) none)).maxY f| ≤ 1) ∧
    ((some (1 / 2) : Option ℝ) = none →
      (anchorTranslate [(0, 0), (10, 10)] [(2, 2), (6, 4)]
        (some (1 / 2)) none).map Prod.fst = [((2 : ℤ), (2 : ℤ)), (6, 4)].map Prod.fst) ∧
    ((none : Option ℝ) = none →
      (anchorTranslate [(0, 0), (10, 10)] [(2, 2), (6, 4)]
        (some (1 / 2)) none).map Prod.snd = [((2 : ℤ), (2 : ℤ)), (6, 4)].map Prod.snd) := by
  refine ⟨by decide, ?_⟩
  exact c9_anchor_translation [(0, 0), (10, 10)] [(2, 2), (6, 4)] (some (1 / 2)) none
    (by decide)

/-! ## Evaluation helpers for the real geometry -/

theorem norm_eval (x y l : ℝ) (hl : Real.sqrt (x * x + y * y) = l)
    (hpos : (1e-10 : ℝ) < l) : norm (x, y) = (x / l, y / l) := by
  simp only [norm, len]
  rw [hl, if_pos hpos]

theorem norm_ten_zero : norm ((10 : ℝ), 0) = (1, 0) := by
  have hs : Real.sqrt (10 * 10 + 0 * 0) = 10 := by
    rw [show (10 : ℝ) * 10 + 0 * 0 = 10 * 10 by ring]
    exact Real.sqrt_mul_self (by norm_num)
  rw [norm_eval 10 0 10 hs (by norm_num)]
  norm_num

theorem norm_zero_ten : norm ((0 : ℝ), 10) = (0, 1) := by
  have hs : Real.sqrt (0 * 0 + 10 * 10) = 10 := by
    rw [show (0 : ℝ) * 0 + 10 * 10 = 10 * 10 by ring]
    exact Real.sqrt_mul_self (by norm_num)
  rw [norm_eval 0 10 10 hs (by norm_num)]
  norm_num

theorem norm_zero_negten : norm ((0 : ℝ), -10) = (0, -1) := by
  have hs : Real.sqrt (0 * 0 + -10 * -10) = 10 := by
    rw [show (0 : ℝ) * 0 + -10 * -10 = 10 * 10 by ring]
    exact Real.sqrt_mul_self (by norm_num)
  rw [norm_eval 0 (-10) 10 hs (by norm_num)]
  norm_num

/-! ## Claim C4: miter joins at convex corners -/

/-- C4: at a convex corner processed with the Miter join kind, the engine
emits the single bisector point `v + bisect * (offset / cross(e1, bisect))`
exactly when the bisector denominator exceeds `1e-6` in magnitude and the
miter distance `|offset / cross(e1, bisect)|` (the emitted point's distance
from the vertex, the bisector being unit length) is at most
`miterLimit * |offset|`; otherwise it emits exactly the two bevel points
`v + outN1 * offset` and `v + outN2 * offset`, never a single sharp point. -/
theorem c4_miter_dispatch (prev curr next : IPt) (offsetAmt miterLimit arcTol : ℝ)
    (hconv : ¬ (¬ 0 < cross (norm (sub (toR curr) (toR prev)))
          (norm (sub (toR next) (toR curr))) *
        (if 0 < offsetAmt then (1 : ℝ) else -1) ∨
      |cross (norm (sub (toR curr) (toR prev)))
          (norm (sub (toR next) (toR curr)))| < 1e-6)) :
    joinVertex prev curr next offsetAmt JoinType.Miter miterLimit arcTol =
      (let e1 := norm (sub (toR curr) (toR prev))
       let e2 := norm (sub (toR next) (toR curr))
       let outN1 := leftNormal e1
       let outN2 := leftNormal e2
       let bisect := norm (add outN1 outN2)
       let sinHalf := cross e1 bisect
       if 1e-6 < |sinHalf| ∧ |offsetAmt / sinHalf| ≤ miterLimit * |offsetAmt| then
         [roundPt (add (toR curr) (scale2 bisect (offsetAmt / sinHalf)))]
       else
         [roundPt (add (toR curr) (scale2 outN1 offsetAmt)),
          roundPt (add (toR curr) (scale2 outN2 offsetAmt))]) := by
  simp only [joinVertex]
  rw [if_neg hconv]

/-- C4 witness: a convex right-angle corner with offset 5 and miter limit 2. -/
theorem c4_witness :
    (¬ (¬ 0 < cross (norm (sub (toR ((0 : ℤ), (0 : ℤ))) (toR ((-10 : ℤ), (0 : ℤ)))))
          (norm (sub (toR ((0 : ℤ), (10 : ℤ))) (toR ((0 : ℤ), (0 : ℤ))))) *
        (if 0 < (5 : ℝ) then (1 : ℝ) else -1) ∨
      |cross (norm (sub (toR ((0 : ℤ), (0 : ℤ))) (toR ((-10 : ℤ), (0 : ℤ)))))
          (norm (sub (toR ((0 : ℤ), (10 : ℤ))) (toR ((0 : ℤ), (0 : ℤ)))))| < 1e-6)) ∧
    joinVertex ((-10 : ℤ), (0 : ℤ)) ((0 : ℤ), (0 : ℤ)) ((0 : ℤ), (10 : ℤ)) 5
      JoinType.Miter 2 (1 / 4) =
      (let e1 := norm (sub (toR ((0 : ℤ), (0 : ℤ))) (toR ((-10 : ℤ), (0 : ℤ))))
       let e2 := norm (sub (toR ((0 : ℤ), (10 : ℤ))) (toR ((0 : ℤ), (0 : ℤ))))
       let outN1 := leftNormal e1
       let outN2 := leftNormal e2
       let bisect := norm (add outN1 outN2)
       let sinHalf := cross e1 bisect
       if 1e-6 < |sinHalf| ∧ |(5 : ℝ) / sinHalf| ≤ 2 * |(5 : ℝ)| then
         [roundPt (add (toR ((0 : ℤ), (0 : ℤ))) (scale2 bisect (5 / sinHalf)))]
       else
         [roundPt (add (toR ((0 : ℤ), (0 : ℤ))) (scale2 outN1 5)),
          roundPt (add (toR ((0 : ℤ), (0 : ℤ))) (scale2 outN2 5))]) := by
  have hsub1 : sub (toR ((0 : ℤ), (0 : ℤ))) (toR ((-10 : ℤ), (0 : ℤ))) = ((10 : ℝ), 0) := by
    simp [sub, toR]
  have hsub2 : sub (toR ((0 : ℤ), (10 : ℤ))) (toR ((0 : ℤ), (0 : ℤ))) = ((0 : ℝ), 10) := by
    simp [sub, toR]
  have hcr : cross (norm (sub (toR ((0 : ℤ), (0 : ℤ))) (toR ((-10 : ℤ), (0 : ℤ)))))
      (norm (sub (toR ((0 : ℤ), (10 : ℤ))) (toR ((0 : ℤ), (0 : ℤ))))) = 1 := by
    rw [hsub1, hsub2, norm_ten_zero, norm_zero_ten]
    simp [cross]
  have hconv : ¬ (¬ 0 < cross (norm (sub (toR ((0 : ℤ), (0 : ℤ))) (toR ((-10 : ℤ), (0 : ℤ)))))
        (norm (sub (toR ((0 : ℤ), (10 : ℤ))) (toR ((0 : ℤ), (0 : ℤ))))) *
      (if 0 < (5 : ℝ) then (1 : ℝ) else -1) ∨
    |cross (norm (sub (toR ((0 : ℤ), (0 : ℤ))) (toR ((-10 : ℤ), (0 : ℤ)))))
        (norm (sub (toR ((0 : ℤ), (10 : ℤ))) (toR ((0 : ℤ), (0 : ℤ)))))| < 1e-6) := by
    rw [hcr]
    norm_num
  exact ⟨hconv, c4_miter_dispatch _ _ _ _ _ _ hconv⟩

/-! ## Claim C5: concave and degenerate corners -/

/-- C5: at a concave or degenerate corner (`cross(e1,e2) * sign(offset) ≤ 0`
or `|cross(e1,e2)| < 1e-6`), the engine emits exactly one point regardless
of the configured join kind: the bisector point
`v + normalize(outN1+outN2) * (offset / cross(e1, bisector))`, or the
fallback `v + outN1 * offset` when that denominator is within `1e-6` of
zero; the join-kind dispatch applies only to convex corners. -/
theorem c5_concave_bisector (prev curr next : IPt) (offsetAmt miterLimit arcTol : ℝ)
    (jt : JoinType)
    (hcc : ¬ 0 < cross (norm (sub (toR curr) (toR prev)))
          (norm (sub (toR next) (toR curr))) *
        (if 0 < offsetAmt then (1 : ℝ) else -1) ∨
      |cross (norm (sub (toR curr) (toR prev)))
          (norm (sub (toR next) (toR curr)))| < 1e-6) :
    joinVertex prev curr next offsetAmt jt miterLimit arcTol =
      (let e1 := norm (sub (toR curr) (toR prev))
       let e2 := norm (sub (toR next) (toR curr))
       let outN1 := leftNormal e1
       let outN2 := leftNormal e2
       let bisect := norm (add outN1 outN2)
       let sinHalf := cross e1 bisect
       if |sinHalf| < 1e-6 then
         [roundPt (add (toR curr) (scale2 outN1 offsetAmt))]
       else
         [roundPt (add (toR curr) (scale2 bisect (offsetAmt / sinHalf)))]) := by
  simp only [joinVertex]
  rw [if_pos hcc]

/-- C5 witness: a concave right-angle corner with offset 5 under the Round
join kind (which the concave branch never consults). -/
theorem c5_witness :
    (¬ 0 < cross (norm (sub (toR ((0 : ℤ), (0 : ℤ))) (toR ((-10 : ℤ), (0 : ℤ)))))
          (norm (sub (toR ((0 : ℤ), (-10 : ℤ))) (toR ((0 : ℤ), (0 : ℤ))))) *
        (if 0 < (5 : ℝ) then (1 : ℝ) else -1) ∨
      |cross (norm (sub (toR ((0 : ℤ), (0 : ℤ))) (toR ((-10 : ℤ), (0 : ℤ)))))
          (norm (sub (toR ((0 : ℤ), (-10 : ℤ))) (toR ((0 : ℤ), (0 : ℤ)))))| < 1e-6) ∧
    joinVertex ((-10 : ℤ), (0 : ℤ)) ((0 : ℤ), (0 : ℤ)) ((0 : ℤ), (-10 : ℤ)) 5
      JoinType.Round 2 (1 / 4) =
      (let e1 := norm (sub (toR ((0 : ℤ), (0 : ℤ))) (toR ((-10 : ℤ), (0 : ℤ))))
       let e2 := norm (sub (toR ((0 : ℤ), (-10 : ℤ))) (toR ((0 : ℤ), (0 : ℤ))))
       let outN1 := leftNormal e1
       let outN2 := leftNormal e2
       let bisect := norm (add outN1 outN2)
       let sinHalf := cross e1 bisect
       if |sinHalf| < 1e-6 then
         [roundPt (add (toR ((0 : ℤ), (0 : ℤ))) (scale2 outN1 5))]
       else
         [roundPt (add (toR ((0 : ℤ), (0 : ℤ))) (scale2 bisect (5 / sinHalf)))]) := by
  have hsub1 : sub (toR ((0 : ℤ), (0 : ℤ))) (toR ((-10 : ℤ), (0 : ℤ))) = ((10 : ℝ), 0) := by
    simp [sub, toR]
  have hsub2 : sub (toR ((0 : ℤ), (-10 : ℤ))) (toR ((0 : ℤ), (0 : ℤ))) = ((0 : ℝ), -10) := by
    simp [sub, toR]
  have hcr : cross (norm (sub (toR ((0 : ℤ), (0 : ℤ))) (toR ((-10 : ℤ), (0 : ℤ)))))
      (norm (sub (toR ((0 : ℤ), (-10 : ℤ))) (toR ((0 : ℤ), (0 : ℤ))))) = -1 := by
    rw [hsub1, hsub2, norm_ten_zero, norm_zero_negten]
    simp [cross]
  have hcc : ¬ 0 < cross (norm (sub (toR ((0 : ℤ), (0 : ℤ))) (toR ((-10 : ℤ), (0 : ℤ)))))
        (norm (sub (toR ((0 : ℤ), (-10 : ℤ))) (toR ((0 : ℤ), (0 : ℤ))))) *
      (if 0 < (5 : ℝ) then (1 : ℝ) else -1) ∨
    |cross (norm (sub (toR ((0 : ℤ), (0 : ℤ))) (toR ((-10 : ℤ), (0 : ℤ)))))
        (norm (sub (toR ((0 : ℤ), (-10 : ℤ))) (toR ((0 : ℤ), (0 : ℤ)))))| < 1e-6 := by
    rw [hcr]
    norm_num
  exact ⟨hcc, c5_concave_bisector _ _ _ _ _ _ _ hcc⟩

/-! ## Claim C7: round join and cap arcs -/

theorem atan2_one_zero : atan2 1 0 = Real.pi / 2 := by
  unfold atan2
  rw [show ((0 : ℝ) : ℂ) + ((1 : ℝ) : ℂ) * Complex.I = Complex.I by
    simp]
  exact Complex.arg_I

theorem atan2_negone_zero : atan2 (-1) 0 = -(Real.pi / 2) := by
  unfold atan2
  rw [show ((0 : ℝ) : ℂ) + ((-1 : ℝ) : ℂ) * Complex.I = -Complex.I by
    simp]
  exact Complex.arg_neg_I

/-- C7 counterexample: for the opposite normals `(0, 1)` and `(0, -1)` -
exactly the pair a round end cap feeds to `addRoundJoin` - the angle
difference `a2 - a1` is `-π`, and the source's normalization loop leaves it
at `-π`, which is not in the claimed interval `(-π, π]`. -/
theorem c7_counterexample_delta_boundary :
    normDelta (atan2 (-1) 0 - atan2 1 0) = -Real.pi ∧
    normDelta (atan2 (-1) 0 - atan2 1 0) ∉ Set.Ioc (-Real.pi) Real.pi := by
  have hval : normDelta (atan2 (-1) 0 - atan2 1 0) = -Real.pi := by
    rw [atan2_one_zero, atan2_negone_zero,
      show -(Real.pi / 2) - Real.pi / 2 = -Real.pi by ring]
    unfold normDelta
    rw [if_neg (by linarith [Real.pi_pos]), if_neg (by linarith [Real.pi_pos])]
  refine ⟨hval, ?_⟩
  rw [hval]
  simp [Set.mem_Ioc]

/-- C7 (amended): when the JS step count is the finite
`s = max(2, ceil(|Δ| / (2*acos(1 - arcTolerance/|offset|))))` - which
requires `offset ≠ 0` and `0 < arcTolerance ≤ 2·|offset|`, otherwise the
source's NaN arithmetic makes its loop run zero times and `addRoundJoin`
emits no points - `addRoundJoin` emits exactly `s + 1` points; `Δ` is
`a2 - a1` normalized into `[-π, π]` (the closed left end replaces the
claimed `(-π, π]`, which the source misses exactly at `-π`); the points sit
at equal angular increments from `a1`, the last angle congruent to `a2`
modulo `2π`, and each point lies at distance `|offset|` from the corner
before integer rounding. -/
theorem c7_round_arc_structure (cx cy : ℝ) (n1 n2 : ℝ × ℝ) (offsetAmt arcTol : ℝ) :
    (arcSteps (normDelta (atan2 n2.2 n2.1 - atan2 n1.2 n1.1)) offsetAmt arcTol = none →
      addRoundJoin cx cy n1 n2 offsetAmt arcTol = []) ∧
    (∀ s : ℤ,
      arcSteps (normDelta (atan2 n2.2 n2.1 - atan2 n1.2 n1.1)) offsetAmt arcTol = some s →
      addRoundJoin cx cy n1 n2 offsetAmt arcTol =
        ((List.range (s.toNat + 1)).map fun (i : ℕ) =>
          (round (cx + Real.cos (atan2 n1.2 n1.1 +
            normDelta (atan2 n2.2 n2.1 - atan2 n1.2 n1.1) / (s : ℝ) * (i : ℝ)) * offsetAmt),
           round (cy + Real.sin (atan2 n1.2 n1.1 +
            normDelta (atan2 n2.2 n2.1 - atan2 n1.2 n1.1) / (s : ℝ) * (i : ℝ)) * offsetAmt))) ∧
      (addRoundJoin cx cy n1 n2 offsetAmt arcTol).length = s.toNat + 1 ∧
      s = max 2 ⌈|normDelta (atan2 n2.2 n2.1 - atan2 n1.2 n1.1)| /
        (2 * Real.arccos (1 - arcTol / (abs offsetAmt)))⌉ ∧
      Real.cos (atan2 n1.2 n1.1 +
          normDelta (atan2 n2.2 n2.1 - atan2 n1.2 n1.1) / (s : ℝ) * ((s.toNat : ℝ))) =
        Real.cos (atan2 n2.2 n2.1) ∧
      Real.sin (atan2 n1.2 n1.1 +
          normDelta (atan2 n2.2 n2.1 - atan2 n1.2 n1.1) / (s : ℝ) * ((s.toNat : ℝ))) =
        Real.sin (atan2 n2.2 n2.1)) ∧
    normDelta (atan2 n2.2 n2.1 - atan2 n1.2 n1.1) ∈ Set.Icc (-Real.pi) Real.pi ∧
    (∀ s : ℤ, ∀ i : ℕ,
      (Real.cos (atan2 n1.2 n1.1 +
          normDelta (atan2 n2.2 n2.1 - atan2 n1.2 n1.1) / (s : ℝ) * (i : ℝ)) * offsetAmt) ^ 2 +
      (Real.sin (atan2 n1.2 n1.1 +
          normDelta (atan2 n2.2 n2.1 - atan2 n1.2 n1.1) / (s : ℝ) * (i : ℝ)) * offsetAmt) ^ 2 =
        offsetAmt ^ 2) := by
  have harg1 : atan2 n1.2 n1.1 ∈ Set.Ioc (-Real.pi) Real.pi := Complex.arg_mem_Ioc _
  have harg2 : atan2 n2.2 n2.1 ∈ Set.Ioc (-Real.pi) Real.pi := Complex.arg_mem_Ioc _
  have hlen : ∀ (n : ℕ) (f : ℕ → IPt), ((List.range n).map f).length = n := by
    intro n f
    rw [List.length_map, List.length_range]
  refine ⟨?_, ?_, ?_, ?_⟩
  · intro hnone
    simp only [addRoundJoin]
    rw [hnone]
  · intro s hs
    have hmap : addRoundJoin cx cy n1 n2 offsetAmt arcTol =
        ((List.range (s.toNat + 1)).map fun (i : ℕ) =>
          (round (cx + Real.cos (atan2 n1.2 n1.1 +
            normDelta (atan2 n2.2 n2.1 - atan2 n1.2 n1.1) / (s : ℝ) * (i : ℝ)) * offsetAmt),
           round (cy + Real.sin (atan2 n1.2 n1.1 +
            normDelta (atan2 n2.2 n2.1 - atan2 n1.2 n1.1) / (s : ℝ) * (i : ℝ)) * offsetAmt))) := by
      simp only [addRoundJoin]
      rw [hs]
    have hval : s = max 2 ⌈|normDelta (atan2 n2.2 n2.1 - atan2 n1.2 n1.1)| /
        (2 * Real.arccos (1 - arcTol / (abs offsetAmt)))⌉ := by
      simp only [arcSteps] at hs
      split at hs
      · exact (Option.some.inj hs).symm
      · exact absurd hs (by simp)
    have hsteps2 : (2 : ℤ) ≤ s := hval ▸ le_max_left _ _
    have hsted : ((s : ℤ) : ℝ) ≠ 0 := by
      have : (2 : ℝ) ≤ ((s : ℤ) : ℝ) := by exact_mod_cast hsteps2
      linarith
    have htonat : ((s.toNat : ℝ)) = ((s : ℤ) : ℝ) := by
      rw [← Int.cast_natCast, Int.toNat_of_nonneg (by omega)]
    have hlast : atan2 n1.2 n1.1 +
        normDelta (atan2 n2.2 n2.1 - atan2 n1.2 n1.1) / (s : ℝ) * ((s.toNat : ℝ)) =
        atan2 n1.2 n1.1 + normDelta (atan2 n2.2 n2.1 - atan2 n1.2 n1.1) := by
      rw [htonat, div_mul_cancel₀ _ hsted]
    refine ⟨hmap, ?_, hval, ?_, ?_⟩
    · rw [hmap]
      exact hlen _ _
    · rw [hlast]
      unfold normDelta
      split_ifs
      · rw [show atan2 n1.2 n1.1 + (atan2 n2.2 n2.1 - atan2 n1.2 n1.1 - 2 * Real.pi) =
          atan2 n2.2 n2.1 - 2 * Real.pi by ring, Real.cos_sub_two_pi]
      · rw [show atan2 n1.2 n1.1 + (atan2 n2.2 n2.1 - atan2 n1.2 n1.1 + 2 * Real.pi) =
          atan2 n2.2 n2.1 + 2 * Real.pi by ring, Real.cos_add_two_pi]
      · rw [show atan2 n1.2 n1.1 + (atan2 n2.2 n2.1 - atan2 n1.2 n1.1) =
          atan2 n2.2 n2.1 by ring]
    · rw [hlast]
      unfold normDelta
      split_ifs
      · rw [show atan2 n1.2 n1.1 + (atan2 n2.2 n2.1 - atan2 n1.2 n1.1 - 2 * Real.pi) =
          atan2 n2.2 n2.1 - 2 * Real.pi by ring, Real.sin_sub_two_pi]
      · rw [show atan2 n1.2 n1.1 + (atan2 n2.2 n2.1 - atan2 n1.2 n1.1 + 2 * Real.pi) =
          atan2 n2.2 n2.1 + 2 * Real.pi by ring, Real.sin_add_two_pi]
      · rw [show atan2 n1.2 n1.1 + (atan2 n2.2 n2.1 - atan2 n1.2 n1.1) =
          atan2 n2.2 n2.1 by ring]
  · unfold normDelta
    split_ifs with h1 h2 <;>
      (rw [Set.mem_Icc]; constructor <;>
        linarith [harg1.1, harg1.2, harg2.1, harg2.2, Real.pi_pos])
  · intro s i
    have hpy := Real.sin_sq_add_cos_sq (atan2 n1.2 n1.1 +
      normDelta (atan2 n2.2 n2.1 - atan2 n1.2 n1.1) / (s : ℝ) * (i : ℝ))
    nlinarith [hpy]

/-- Witness for C7 at a concrete round join: normals `(1, 0)` and `(0, 1)`
(so `Δ = π/2`), `offset = 1`, `arcTolerance = 1/2`, where the step count is
finite and equal to `2`. -/
theorem c7_witness :
    (arcSteps (normDelta (atan2 1 0 - atan2 0 1)) (1 : ℝ) (1 / 2) = some 2) ∧
    (addRoundJoin 0 0 ((1 : ℝ), (0 : ℝ)) ((0 : ℝ), (1 : ℝ)) 1 (1 / 2) =
      ((List.range ((2 : ℤ).toNat + 1)).map fun (i : ℕ) =>
        (round ((0 : ℝ) + Real.cos (atan2 0 1 +
          normDelta (atan2 1 0 - atan2 0 1) / ((2 : ℤ) : ℝ) * (i : ℝ)) * 1),
         round ((0 : ℝ) + Real.sin (atan2 0 1 +
          normDelta (atan2 1 0 - atan2 0 1) / ((2 : ℤ) : ℝ) * (i : ℝ)) * 1))) ∧
    (addRoundJoin 0 0 ((1 : ℝ), (0 : ℝ)) ((0 : ℝ), (1 : ℝ)) 1 (1 / 2)).length =
      (2 : ℤ).toNat + 1 ∧
    (2 : ℤ) = max 2 ⌈|normDelta (atan2 1 0 - atan2 0 1)| /
      (2 * Real.arccos (1 - 1 / 2 / (abs (1 : ℝ))))⌉ ∧
    Real.cos (atan2 0 1 +
        normDelta (atan2 1 0 - atan2 0 1) / ((2 : ℤ) : ℝ) * (((2 : ℤ).toNat : ℝ))) =
      Real.cos (atan2 1 0) ∧
    Real.sin (atan2 0 1 +
        normDelta (atan2 1 0 - atan2 0 1) / ((2 : ℤ) : ℝ) * (((2 : ℤ).toNat : ℝ))) =
      Real.sin (atan2 1 0)) := by
  have ha1 : atan2 (0 : ℝ) 1 = 0 := by
    unfold atan2
    rw [show ((1 : ℝ) : ℂ) + ((0 : ℝ) : ℂ) * Complex.I = 1 by simp]
    exact Complex.arg_one
  have hD : normDelta (atan2 (1 : ℝ) 0 - atan2 (0 : ℝ) 1) = Real.pi / 2 := by
    rw [atan2_one_zero, ha1, sub_zero]
    unfold normDelta
    rw [if_neg (by linarith [Real.pi_pos]), if_neg (by linarith [Real.pi_pos])]
  have harccos : Real.arccos (1 - 1 / 2 / |(1 : ℝ)|) = Real.pi / 3 := by
    rw [show (1 : ℝ) - 1 / 2 / |(1 : ℝ)| = Real.cos (Real.pi / 3) by
      rw [Real.cos_pi_div_three]; norm_num]
    exact Real.arccos_cos (by positivity) (by linarith [Real.pi_pos])
  have hsteps : arcSteps (normDelta (atan2 (1 : ℝ) 0 - atan2 (0 : ℝ) 1)) (1 : ℝ) (1 / 2) =
      some 2 := by
    simp only [arcSteps]
    rw [if_pos (by norm_num)]
    rw [hD, harccos, abs_of_pos (by positivity : (0 : ℝ) < Real.pi / 2)]
    rw [show Real.pi / 2 / (2 * (Real.pi / 3)) = 3 / 4 by
      have hpi := Real.pi_ne_zero
      field_simp
      ring]
    rw [show ⌈(3 / 4 : ℝ)⌉ = 1 by rw [Int.ceil_eq_iff] <;> norm_num]
    norm_num
  exact ⟨hsteps,
    (c7_round_arc_structure 0 0 ((1 : ℝ), (0 : ℝ)) ((0 : ℝ), (1 : ℝ)) 1 (1 / 2)).2.1 2 hsteps⟩

/-! ## Claim C8: extent of the per-vertex loop -/

/-- Evaluation of the convex Bevel branch of `joinVertex`. -/
theorem joinVertex_bevel_eval (prev curr next : IPt) (offsetAmt miterLimit arcTol : ℝ)
    (e1 e2 : ℝ × ℝ)
    (h1 : norm (sub (toR curr) (toR prev)) = e1)
    (h2 : norm (sub (toR next) (toR curr)) = e2)
    (hconv : 0 < cross e1 e2 * (if 0 < offsetAmt then (1 : ℝ) else -1))
    (hcr : ¬ |cross e1 e2| < 1e-6) :
    joinVertex prev curr next offsetAmt JoinType.Bevel miterLimit arcTol =
      [roundPt (add (toR curr) (scale2 (leftNormal e1) offsetAmt)),
       roundPt (add (toR curr) (scale2 (leftNormal e2) offsetAmt))] := by
  simp only [joinVertex, h1, h2]
  rw [if_neg (by push_neg; exact ⟨hconv, not_lt.mp hcr⟩)]

theorem norm_zero_negtwenty : norm ((0 : ℝ), -20) = (0, -1) := by
  have hs : Real.sqrt (0 * 0 + -20 * -20) = 20 := by
    rw [show (0 : ℝ) * 0 + -20 * -20 = 20 * 20 by ring]
    exact Real.sqrt_mul_self (by norm_num)
  rw [norm_eval 0 (-20) 20 hs (by norm_num)]
  norm_num

theorem norm_twenty_zero : norm ((20 : ℝ), 0) = (1, 0) := by
  have hs : Real.sqrt (20 * 20 + 0 * 0) = 20 := by
    rw [show (20 : ℝ) * 20 + 0 * 0 = 20 * 20 by ring]
    exact Real.sqrt_mul_self (by norm_num)
  rw [norm_eval 20 0 20 hs (by norm_num)]
  norm_num

theorem norm_fifteen_negtwenty : norm ((15 : ℝ), -20) = (3 / 5, -(4 / 5)) := by
  have hs : Real.sqrt (15 * 15 + -20 * -20) = 25 := by
    rw [show (15 : ℝ) * 15 + -20 * -20 = 25 * 25 by ring]
    exact Real.sqrt_mul_self (by norm_num)
  rw [norm_eval 15 (-20) 25 hs (by norm_num)]
  norm_num

/-- The wrap-edge join at vertex 0 of the first counterexample input. -/
theorem joinVertex_cex_first :
    joinVertex ((0 : ℤ), (20 : ℤ)) ((0 : ℤ), (0 : ℤ)) ((20 : ℤ), (0 : ℤ)) 5
      JoinType.Bevel 2 (1 / 4) = [((5 : ℤ), (0 : ℤ)), ((0 : ℤ), (5 : ℤ))] := by
  have hs1 : sub (toR ((0 : ℤ), (0 : ℤ))) (toR ((0 : ℤ), (20 : ℤ))) = ((0 : ℝ), -20) := by
    simp [sub, toR]
  have hs2 : sub (toR ((20 : ℤ), (0 : ℤ))) (toR ((0 : ℤ), (0 : ℤ))) = ((20 : ℝ), 0) := by
    simp [sub, toR]
  have hn1 : norm (sub (toR ((0 : ℤ), (0 : ℤ))) (toR ((0 : ℤ), (20 : ℤ)))) = ((0 : ℝ), -1) := by
    rw [hs1, norm_zero_negtwenty]
  have hn2 : norm (sub (toR ((20 : ℤ), (0 : ℤ))) (toR ((0 : ℤ), (0 : ℤ)))) = ((1 : ℝ), 0) := by
    rw [hs2, norm_twenty_zero]
  rw [joinVertex_bevel_eval _ _ _ _ _ _ ((0 : ℝ), -1) ((1 : ℝ), 0) hn1 hn2
    (by norm_num [cross]) (by norm_num [cross])]
  have hp1 : add (toR ((0 : ℤ), (0 : ℤ))) (scale2 (leftNormal ((0 : ℝ), -1)) 5) =
      (((5 : ℤ) : ℝ), ((0 : ℤ) : ℝ)) := by
    simp [add, scale2, leftNormal, toR]
  have hp2 : add (toR ((0 : ℤ), (0 : ℤ))) (scale2 (leftNormal ((1 : ℝ), 0)) 5) =
      (((0 : ℤ) : ℝ), ((5 : ℤ) : ℝ)) := by
    simp [add, scale2, leftNormal, toR]
  rw [hp1, hp2]
  simp [roundPt, round_intCast]

/-- The wrap-edge join at vertex 0 of the second counterexample input. -/
theorem joinVertex_cex_second :
    joinVertex ((-15 : ℤ), (20 : ℤ)) ((0 : ℤ), (0 : ℤ)) ((20 : ℤ), (0 : ℤ)) 5
      JoinType.Bevel 2 (1 / 4) = [((4 : ℤ), (3 : ℤ)), ((0 : ℤ), (5 : ℤ))] := by
  have hs1 : sub (toR ((0 : ℤ), (0 : ℤ))) (toR ((-15 : ℤ), (20 : ℤ))) = ((15 : ℝ), -20) := by
    simp [sub, toR]
  have hs2 : sub (toR ((20 : ℤ), (0 : ℤ))) (toR ((0 : ℤ), (0 : ℤ))) = ((20 : ℝ), 0) := by
    simp [sub, toR]
  have hn1 : norm (sub (toR ((0 : ℤ), (0 : ℤ))) (toR ((-15 : ℤ), (20 : ℤ)))) =
      ((3 / 5 : ℝ), -(4 / 5)) := by
    rw [hs1, norm_fifteen_negtwenty]
  have hn2 : norm (sub (toR ((20 : ℤ), (0 : ℤ))) (toR ((0 : ℤ), (0 : ℤ)))) = ((1 : ℝ), 0) := by
    rw [hs2, norm_twenty_zero]
  rw [joinVertex_bevel_eval _ _ _ _ _ _ ((3 / 5 : ℝ), -(4 / 5)) ((1 : ℝ), 0) hn1 hn2
    (by norm_num [cross])
    (by
      have hc : cross ((3 / 5 : ℝ), -(4 / 5)) ((1 : ℝ), 0) = 4 / 5 := by norm_num [cross]
      rw [hc, abs_of_pos]
      · norm_num
      · norm_num)]
  have hp1 : add (toR ((0 : ℤ), (0 : ℤ))) (scale2 (leftNormal ((3 / 5 : ℝ), -(4 / 5))) 5) =
      (((4 : ℤ) : ℝ), ((3 : ℤ) : ℝ)) := by
    simp [add, scale2, leftNormal, toR]
  have hp2 : add (toR ((0 : ℤ), (0 : ℤ))) (scale2 (leftNormal ((1 : ℝ), 0)) 5) =
      (((0 : ℤ) : ℝ), ((5 : ℤ) : ℝ)) := by
    simp [add, scale2, leftNormal, toR]
  rw [hp1, hp2]
  simp [roundPt, round_intCast]

/-- C8 counterexample: two open (Butt-ended) 4-point inputs that differ only
in the position of their last point along the fixed direction of its
incoming edge.  Under the claim - the per-vertex join covers interior
vertices only and excludes the wrap-around edge from the last point back to
the first - both outputs would coincide: every interior join and the Butt
caps (which add no points) see identical edge directions.  The outputs
differ in their very first emitted point, because the loop also processes
vertex `0` and takes `pts[n-1]` as its predecessor, i.e. the wrap-around
edge is its incoming edge. -/
theorem c8_counterexample_wrap_edge :
    (offsetPolygon [((0 : ℤ), (0 : ℤ)), (20, 0), (20, 20), (0, 20)] 5
        JoinType.Bevel EndType.Butt 2 (1 / 4)).head? = some ((5 : ℤ), (0 : ℤ)) ∧
    (offsetPolygon [((0 : ℤ), (0 : ℤ)), (20, 0), (20, 20), (-15, 20)] 5
        JoinType.Bevel EndType.Butt 2 (1 / 4)).head? = some ((4 : ℤ), (3 : ℤ)) ∧
    (offsetPolygon [((0 : ℤ), (0 : ℤ)), (20, 0), (20, 20), (0, 20)] 5
        JoinType.Bevel EndType.Butt 2 (1 / 4)).head? ≠
      (offsetPolygon [((0 : ℤ), (0 : ℤ)), (20, 0), (20, 20), (-15, 20)] 5
        JoinType.Bevel EndType.Butt 2 (1 / 4)).head? := by
  have hP1 : offsetPolygon [((0 : ℤ), (0 : ℤ)), (20, 0), (20, 20), (0, 20)] 5
      JoinType.Bevel EndType.Butt 2 (1 / 4) =
      joinVertex ((0 : ℤ), (20 : ℤ)) ((0 : ℤ), (0 : ℤ)) ((20 : ℤ), (0 : ℤ)) 5
          JoinType.Bevel 2 (1 / 4) ++
        (joinVertex ((0 : ℤ), (0 : ℤ)) ((20 : ℤ), (0 : ℤ)) ((20 : ℤ), (20 : ℤ)) 5
          JoinType.Bevel 2 (1 / 4) ++
         (joinVertex ((20 : ℤ), (0 : ℤ)) ((20 : ℤ), (20 : ℤ)) ((0 : ℤ), (20 : ℤ)) 5
          JoinType.Bevel 2 (1 / 4) ++ [])) := rfl
  have hP2 : offsetPolygon [((0 : ℤ), (0 : ℤ)), (20, 0), (20, 20), (-15, 20)] 5
      JoinType.Bevel EndType.Butt 2 (1 / 4) =
      joinVertex ((-15 : ℤ), (20 : ℤ)) ((0 : ℤ), (0 : ℤ)) ((20 : ℤ), (0 : ℤ)) 5
          JoinType.Bevel 2 (1 / 4) ++
        (joinVertex ((0 : ℤ), (0 : ℤ)) ((20 : ℤ), (0 : ℤ)) ((20 : ℤ), (20 : ℤ)) 5
          JoinType.Bevel 2 (1 / 4) ++
         (joinVertex ((20 : ℤ), (0 : ℤ)) ((20 : ℤ), (20 : ℤ)) ((-15 : ℤ), (20 : ℤ)) 5
          JoinType.Bevel 2 (1 / 4) ++ [])) := rfl
  have hh1 : (offsetPolygon [((0 : ℤ), (0 : ℤ)), (20, 0), (20, 20), (0, 20)] 5
      JoinType.Bevel EndType.Butt 2 (1 / 4)).head? = some ((5 : ℤ), (0 : ℤ)) := by
    rw [hP1, joinVertex_cex_first]
    rfl
  have hh2 : (offsetPolygon [((0 : ℤ), (0 : ℤ)), (20, 0), (20, 20), (-15, 20)] 5
      JoinType.Bevel EndType.Butt 2 (1 / 4)).head? = some ((4 : ℤ), (3 : ℤ)) := by
    rw [hP2, joinVertex_cex_second]
    rfl
  refine ⟨hh1, hh2, ?_⟩
  rw [hh1, hh2]
  decide

/-- C8 (amended): with end kind Polygon or Joined, `offsetPolygon` applies
the per-vertex join to all `n` vertices including the closing edge; with an
open end kind (Butt, Square, Round) it applies the join to exactly the
first `n - 1` vertices (indices `0 .. n-2`) before adding the caps - not to
"interior vertices only": the vertex at index `0` takes the last point as
its predecessor, so the wrap-around edge serves as its incoming edge. -/
theorem c8_vertex_loop_extent (pts : List IPt) (offsetAmt miterLimit arcTol : ℝ)
    (jt : JoinType) (hn : 3 ≤ pts.length) :
    (∀ et, (et = EndType.Polygon ∨ et = EndType.Joined) →
      offsetPolygon pts offsetAmt jt et miterLimit arcTol =
        joinLoop pts offsetAmt jt miterLimit arcTol pts.length) ∧
    (∀ et, (et = EndType.Butt ∨ et = EndType.Square ∨ et = EndType.Round) →
      offsetPolygon pts offsetAmt jt et miterLimit arcTol =
        capApply pts offsetAmt arcTol et
          (joinLoop pts offsetAmt jt miterLimit arcTol (pts.length - 1))) ∧
    (∀ k, ∃ rest, joinLoop pts offsetAmt jt miterLimit arcTol (k + 1) =
      joinVertex (pts.getD ((pts.length - 1) % pts.length) (0, 0)) (pts.getD 0 (0, 0))
        (pts.getD (1 % pts.length) (0, 0)) offsetAmt jt miterLimit arcTol ++ rest) := by
  refine ⟨?_, ?_, ?_⟩
  · rintro et (rfl | rfl) <;>
    · unfold offsetPolygon
      rw [if_neg (by omega)]
      simp [capApply, isOpenEnd]
  · rintro et (rfl | rfl | rfl) <;>
    · unfold offsetPolygon
      rw [if_neg (by omega)]
      simp [isOpenEnd]
  · intro k
    refine ⟨((List.range k).map Nat.succ).flatMap fun i =>
      joinVertex (pts.getD ((i + pts.length - 1) % pts.length) (0, 0)) (pts.getD i (0, 0))
        (pts.getD ((i + 1) % pts.length) (0, 0)) offsetAmt jt miterLimit arcTol, ?_⟩
    simp only [joinLoop, List.range_succ_eq_map, List.flatMap_cons, Nat.zero_add]

/-- C8 witness: a concrete closed triangle processed over all 3 vertices. -/
theorem c8_witness :
    3 ≤ ([((0 : ℤ), (0 : ℤ)), (10, 0), (0, 10)] : List IPt).length ∧
    offsetPolygon [((0 : ℤ), (0 : ℤ)), (10, 0), (0, 10)] 1 JoinType.Bevel
        EndType.Polygon 2 (1 / 4) =
      joinLoop [((0 : ℤ), (0 : ℤ)), (10, 0), (0, 10)] 1 JoinType.Bevel 2 (1 / 4) 3 := by
  refine ⟨by decide, ?_⟩
  exact (c8_vertex_loop_extent [((0 : ℤ), (0 : ℤ)), (10, 0), (0, 10)] 1 2 (1 / 4)
    JoinType.Bevel (by decide)).1 EndType.Polygon (Or.inl rfl)

/-! ## Claim C10: all emitted coordinates are integers -/

/-- C10: every point in `offsetPolygon`'s output equals its own rounding
(each emitted coordinate was rounded to the nearest integer), and the anchor
translation adds one integer pair to every point, so the serializer always
receives points whose coordinates equal their own rounding. -/
theorem c10_integer_emission (pts pts' : List IPt) (offsetAmt : ℝ) (jt : JoinType)
    (et : EndType) (miterLimit arcTol : ℝ) (ox oy : Option ℝ) :
    ((offsetPolygon pts offsetAmt jt et miterLimit arcTol).map fun q =>
        ((round ((q.1 : ℝ)) : ℤ), (round ((q.2 : ℝ)) : ℤ))) =
      offsetPolygon pts offsetAmt jt et miterLimit arcTol ∧
    ∃ dx dy : ℤ,
      anchorTranslate pts' (offsetPolygon pts offsetAmt jt et miterLimit arcTol) ox oy =
        (offsetPolygon pts offsetAmt jt et miterLimit arcTol).map fun p =>
          (p.1 + dx, p.2 + dy) := by
  constructor
  · simp [round_intCast]
  · unfold anchorTranslate
    split
    · exact ⟨0, 0, by simp⟩
    · dsimp only
      split
      · exact ⟨0, 0, by simp⟩
      · exact ⟨_, _, rfl⟩

end GOP
